import Mathlib

/-!
Verification of the palette extractor & categorizer in
`claude-skills/css-mimic/scripts/analyze_colors.py`.

Colors are RGB triples of natural numbers (8-bit channels in the pipeline).
Python float comparisons against the literal `0.3` are modelled exactly over
`ℚ` as comparisons against `3/10`: for channel values up to 255 the quotient
`(max - min) / max` is a rational with denominator at most 255, and no such
rational other than `3/10` itself lies within one double-precision ulp of
`0.3`, so the float test and the exact rational test agree.  The WCAG
luminance (which uses a real power `x ** 2.4`) is modelled over `ℝ`.
-/

namespace AnalyzeColors

abbrev Color := ℕ × ℕ × ℕ

/-- One lowercase hexadecimal digit (`0`–`9`, `a`–`f`). -/
def hexDigit (n : ℕ) : Char :=
  if n < 10 then Char.ofNat (48 + n) else Char.ofNat (87 + n)

/-- Two-digit lowercase hex rendering of a byte, as Python `'{:02x}'.format`
produces for values below 256. -/
def hex2 (n : ℕ) : String :=
  String.mk [hexDigit (n / 16), hexDigit (n % 16)]

/-- Python `rgb_to_hex`: `'#{:02x}{:02x}{:02x}'.format(r, g, b)`. -/
def rgb_to_hex (rgb : Color) : String :=
  "#" ++ hex2 rgb.1 ++ hex2 rgb.2.1 ++ hex2 rgb.2.2

/-- Python `is_grayscale(rgb, threshold)`:
`abs(r-g) < threshold and abs(g-b) < threshold and abs(r-b) < threshold`.
The Python default for `threshold` is 10; call sites pass it explicitly here. -/
def is_grayscale (rgb : Color) (threshold : ℕ) : Bool :=
  ((rgb.1 : ℤ) - rgb.2.1).natAbs < threshold &&
  ((rgb.2.1 : ℤ) - rgb.2.2).natAbs < threshold &&
  ((rgb.1 : ℤ) - rgb.2.2).natAbs < threshold

/-- The saturation expression of `categorize_colors`:
`(max_val - min_val) / max_val if max_val > 0 else 0`, exact over `ℚ`. -/
def saturation (rgb : Color) : ℚ :=
  let maxv := max rgb.1 (max rgb.2.1 rgb.2.2)
  let minv := min rgb.1 (min rgb.2.1 rgb.2.2)
  if maxv > 0 then ((maxv : ℚ) - (minv : ℚ)) / (maxv : ℚ) else 0

/-- The `categorized` dictionary of `categorize_colors`. -/
structure Categorized where
  primary : List Color
  neutral : List Color
  accent : List Color
deriving DecidableEq, Repr

/-- The body of the `for rgb in colors` loop of `categorize_colors`. -/
def categorizeStep (acc : Categorized) (rgb : Color) : Categorized :=
  if is_grayscale rgb 10 then
    ⟨acc.primary, acc.neutral ++ [rgb], acc.accent⟩
  else if saturation rgb > 3/10 then
    if acc.primary.length < 2 then
      ⟨acc.primary ++ [rgb], acc.neutral, acc.accent⟩
    else
      ⟨acc.primary, acc.neutral, acc.accent ++ [rgb]⟩
  else
    ⟨acc.primary, acc.neutral ++ [rgb], acc.accent⟩

/-- Python `categorize_colors(colors)`: fold the loop body over the input,
starting from three empty buckets. -/
def categorize_colors (colors : List Color) : Categorized :=
  colors.foldl categorizeStep ⟨[], [], []⟩

/-- Per-channel sRGB linearization inside `get_luminance`:
`x / 12.92 if x <= 0.03928 else ((x + 0.055) / 1.055) ** 2.4`. -/
noncomputable def linearize (x : ℝ) : ℝ :=
  if x ≤ 0.03928 then x / 12.92 else ((x + 0.055) / 1.055) ^ (2.4 : ℝ)

/-- Python `get_luminance(rgb)`: WCAG relative luminance
`0.2126 * r + 0.7152 * g + 0.0722 * b` of the linearized channels. -/
noncomputable def get_luminance (rgb : Color) : ℝ :=
  0.2126 * linearize ((rgb.1 : ℝ) / 255) + 0.7152 * linearize ((rgb.2.1 : ℝ) / 255)
    + 0.0722 * linearize ((rgb.2.2 : ℝ) / 255)

/-- The comparison fed to the stable sort in
`sorted(categorized_colors['neutral'], key=get_luminance)`. -/
noncomputable def lumLe (a b : Color) : Bool :=
  decide (get_luminance a ≤ get_luminance b)

/-- The sorted copy `neutrals = sorted(categorized_colors['neutral'], key=get_luminance)`. -/
noncomputable def sortedNeutrals (p : Categorized) : List Color :=
  p.neutral.mergeSort lumLe

/-- One `  --color-<name>: <hex>;` declaration line. -/
def cssLine (name : String) (rgb : Color) : String :=
  "  --color-" ++ name ++ ": " ++ rgb_to_hex rgb ++ ";"

/-- The luminance-derived name of the i-th (1-based) sorted neutral:
`light-N` above 0.7, `dark-N` below 0.3, else `neutral-N`. -/
noncomputable def neutralName (i : ℕ) (rgb : Color) : String :=
  if get_luminance rgb > 0.7 then "light-" ++ toString i
  else if get_luminance rgb < 0.3 then "dark-" ++ toString i
  else "neutral-" ++ toString i

/-- The `--color-primary-N` lines, in bucket (insertion) order. -/
def primaryLines (p : Categorized) : List String :=
  p.primary.enum.map (fun ic => cssLine ("primary-" ++ toString (ic.1 + 1)) ic.2)

/-- The neutral lines, emitted over the luminance-sorted copy of the bucket. -/
noncomputable def neutralLines (p : Categorized) : List String :=
  (sortedNeutrals p).enum.map (fun ic => cssLine (neutralName (ic.1 + 1) ic.2) ic.2)

/-- The `--color-accent-N` lines, in bucket (insertion) order. -/
def accentLines (p : Categorized) : List String :=
  p.accent.enum.map (fun ic => cssLine ("accent-" ++ toString (ic.1 + 1)) ic.2)

/-- Python `generate_css_variables(categorized_colors)` as its list of lines. -/
noncomputable def generate_css_variables (p : Categorized) : List String :=
  ["/* Color Palette - Generated from screenshot */", ":root \x7b"]
    ++ primaryLines p ++ neutralLines p ++ accentLines p ++ ["\x7d"]

/-- Does `pat` occur at the head of the character list? -/
def startsWith : List Char → List Char → Bool
  | [], _ => true
  | _ :: _, [] => false
  | p :: ps, c :: cs => p == c && startsWith ps cs

/-- Does `pat` occur anywhere in the character list? -/
def containsSeq (pat : List Char) : List Char → Bool
  | [] => startsWith pat []
  | c :: cs => startsWith pat (c :: cs) || containsSeq pat cs

/-- Python `str.replace(old, new)`: replace every non-overlapping occurrence
of `pat`, scanning left to right.  (For the empty pattern this returns the
input unchanged; the script only ever replaces `".css"`.) -/
def replaceAll (pat rep : List Char) : List Char → List Char
  | [] => []
  | c :: cs =>
    if pat ≠ [] ∧ startsWith pat (c :: cs) = true then
      rep ++ replaceAll pat rep (cs.drop (pat.length - 1))
    else
      c :: replaceAll pat rep cs
termination_by s => s.length
decreasing_by
  all_goals simp [List.length_drop]
  omega

/-- The characters of the pattern `'.css'`. -/
def cssExt : List Char := ['.', 'c', 's', 's']

/-- The characters of the replacement `'.json'`. -/
def jsonExt : List Char := ['.', 'j', 's', 'o', 'n']

/-- The sidecar path `json_file = args.output.replace('.css', '.json')`. -/
def jsonFileName (out : String) : String :=
  String.mk (replaceAll ".css".data ".json".data out.data)

/-- The `json_output` dictionary written by `main` under `--json`, as an
ordered key/value list: the three buckets and all extracted colors as hex
strings. -/
def json_output (colors : List Color) : List (String × List String) :=
  [("primary", (categorize_colors colors).primary.map rgb_to_hex),
   ("neutral", (categorize_colors colors).neutral.map rgb_to_hex),
   ("accent", (categorize_colors colors).accent.map rgb_to_hex),
   ("all_colors", colors.map rgb_to_hex)]

/-! ### Helper lemmas about the categorizer -/

/-- Each loop iteration appends the color to exactly one bucket. -/
lemma categorizeStep_cases (acc : Categorized) (c : Color) :
    categorizeStep acc c = ⟨acc.primary ++ [c], acc.neutral, acc.accent⟩ ∨
    categorizeStep acc c = ⟨acc.primary, acc.neutral ++ [c], acc.accent⟩ ∨
    categorizeStep acc c = ⟨acc.primary, acc.neutral, acc.accent ++ [c]⟩ := by
  unfold categorizeStep
  split_ifs <;> simp

/-- Folding the loop body adds exactly the input occurrences to the buckets. -/
lemma foldl_buckets_multiset (cs : List Color) :
    ∀ acc : Categorized,
      ((cs.foldl categorizeStep acc).primary : Multiset Color)
          + ((cs.foldl categorizeStep acc).neutral : Multiset Color)
          + ((cs.foldl categorizeStep acc).accent : Multiset Color)
        = (((acc.primary : Multiset Color) + (acc.neutral : Multiset Color)
            + (acc.accent : Multiset Color)) + (cs : Multiset Color)) := by
  induction cs with
  | nil => intro acc; simp
  | cons c cs ih =>
    intro acc
    rw [List.foldl_cons, ih]
    rcases categorizeStep_cases acc c with h | h | h <;> rw [h] <;> simp
    · exact List.Perm.append_left _
        (List.perm_middle.symm.trans (List.Perm.append_left _ List.perm_middle.symm))
    · exact List.Perm.append_left _ (List.Perm.append_left _ List.perm_middle.symm)

/-- The primary bucket never grows beyond two colors. -/
lemma primary_length_le_two (cs : List Color) :
    ∀ acc : Categorized, acc.primary.length ≤ 2 →
      ((cs.foldl categorizeStep acc).primary).length ≤ 2 := by
  induction cs with
  | nil => intro acc h; simpa using h
  | cons c cs ih =>
    intro acc h
    rw [List.foldl_cons]
    apply ih
    unfold categorizeStep
    split_ifs with h1 h2 h3 <;> simp <;> omega

/-! ### Claims -/

/-- C4: at the default threshold 10, `is_grayscale` returns true exactly when
all three pairwise channel differences are at most 9, and false as soon as one
pairwise difference reaches 10. -/
theorem C4_grayscale_threshold (r g b : ℕ) :
    ((|(r : ℤ) - g| ≤ 9 ∧ |(g : ℤ) - b| ≤ 9 ∧ |(r : ℤ) - b| ≤ 9) →
        is_grayscale (r, g, b) 10 = true) ∧
    ((10 ≤ |(r : ℤ) - g| ∨ 10 ≤ |(g : ℤ) - b| ∨ 10 ≤ |(r : ℤ) - b|) →
        is_grayscale (r, g, b) 10 = false) := by
  have e : ∀ x : ℤ, |x| = (x.natAbs : ℤ) := fun x => Int.abs_eq_natAbs x
  constructor
  · intro h
    simp only [e] at h
    simp only [is_grayscale, Bool.and_eq_true, decide_eq_true_eq]
    omega
  · intro h
    simp only [e] at h
    simp only [is_grayscale, Bool.and_eq_false_iff, decide_eq_false_iff_not]
    omega

theorem C4_grayscale_threshold_witness :
    (|(5 : ℤ) - 9| ≤ 9 ∧ |(9 : ℤ) - 3| ≤ 9 ∧ |(5 : ℤ) - 3| ≤ 9) ∧
    is_grayscale (5, 9, 3) 10 = true ∧
    (10 ≤ |(200 : ℤ) - 30| ∨ 10 ≤ |(30 : ℤ) - 30| ∨ 10 ≤ |(200 : ℤ) - 30|) ∧
    is_grayscale (200, 30, 30) 10 = false :=
  ⟨by decide, (C4_grayscale_threshold 5 9 3).1 (by decide), by decide,
    (C4_grayscale_threshold 200 30 30).2 (by decide)⟩

/-- C5: a color whose maximum channel is 0 has saturation 0 (the guarded
division), and the categorizer loop puts it into the neutral bucket. -/
theorem C5_black_goes_neutral (r g b : ℕ) (acc : Categorized)
    (h : max r (max g b) = 0) :
    saturation (r, g, b) = 0 ∧
    categorizeStep acc (r, g, b) = ⟨acc.primary, acc.neutral ++ [(r, g, b)], acc.accent⟩ := by
  rcases Nat.max_eq_zero_iff.mp h with ⟨hr, h2⟩
  rcases Nat.max_eq_zero_iff.mp h2 with ⟨hg, hb⟩
  subst hr; subst hg; subst hb
  refine ⟨by simp [saturation], ?_⟩
  unfold categorizeStep
  rw [if_pos (show is_grayscale (0, 0, 0) 10 = true from rfl)]

theorem C5_black_goes_neutral_witness :
    max 0 (max 0 0) = 0 ∧ saturation (0, 0, 0) = 0 ∧
    categorizeStep ⟨[], [], []⟩ (0, 0, 0) = ⟨[], [(0, 0, 0)], []⟩ :=
  ⟨rfl, (C5_black_goes_neutral 0 0 0 ⟨[], [], []⟩ rfl).1,
    (C5_black_goes_neutral 0 0 0 ⟨[], [], []⟩ rfl).2⟩

/-- C7: the categorizer is deterministic — running it twice on the same
input sequence (same colors, same order) yields identical buckets. -/
theorem C7_deterministic (xs ys : List Color) (h : xs = ys) :
    categorize_colors xs = categorize_colors ys := by rw [h]

theorem C7_deterministic_witness :
    categorize_colors [((1, 2, 3) : Color)] = categorize_colors [((1, 2, 3) : Color)] :=
  C7_deterministic [(1, 2, 3)] [(1, 2, 3)] rfl

/-- C2: the primary bucket holds at most two colors, and a non-grayscale
color with saturation above 3/10 processed while primary already holds two
is appended to the accent bucket. -/
theorem C2_primary_cap (colors : List Color) :
    (categorize_colors colors).primary.length ≤ 2 ∧
    ∀ acc : Categorized, ∀ c : Color,
      is_grayscale c 10 = false → saturation c > 3/10 → acc.primary.length = 2 →
      categorizeStep acc c = ⟨acc.primary, acc.neutral, acc.accent ++ [c]⟩ := by
  refine ⟨primary_length_le_two colors ⟨[], [], []⟩ (by simp), ?_⟩
  intro acc c hg hs hl
  simp [categorizeStep, hg, hs, hl]

theorem C2_primary_cap_witness :
    (categorize_colors [((200, 30, 30) : Color)]).primary.length ≤ 2 ∧
    categorizeStep ⟨[(200, 30, 30), (30, 200, 30)], [], []⟩ (30, 30, 200)
      = ⟨[(200, 30, 30), (30, 200, 30)], [], [(30, 30, 200)]⟩ :=
  ⟨(C2_primary_cap [(200, 30, 30)]).1,
    (C2_primary_cap []).2 ⟨[(200, 30, 30), (30, 200, 30)], [], []⟩ (30, 30, 200)
      (by decide) (by norm_num [saturation]) rfl⟩

/-- C3: every input color occurrence lands in exactly one bucket — the three
bucket lengths sum to the input length and the buckets' multiset union is the
input multiset. -/
theorem C3_complete_partition (colors : List Color) :
    ((categorize_colors colors).primary.length
        + (categorize_colors colors).neutral.length
        + (categorize_colors colors).accent.length = colors.length) ∧
    ((categorize_colors colors).primary : Multiset Color)
        + ((categorize_colors colors).neutral : Multiset Color)
        + ((categorize_colors colors).accent : Multiset Color)
      = (colors : Multiset Color) := by
  have h := foldl_buckets_multiset colors ⟨[], [], []⟩
  simp only [categorize_colors] at h ⊢
  refine ⟨?_, by simpa using h⟩
  have hc := congrArg Multiset.card h
  simp at hc
  omega

/-- C1 as stated is false: a color such as (10,3,3) has saturation 7/10 > 3/10
but is also grayscale (all pairwise differences below 10), so the grayscale
check routes it to neutral and the primary bucket stays empty. -/
theorem C1_counterexample :
    saturation (10, 3, 3) > 3/10 ∧
    (List.replicate 5 ((10, 3, 3) : Color)).length = 5 ∧
    (categorize_colors (List.replicate 5 ((10, 3, 3) : Color))).primary = [] ∧
    (categorize_colors (List.replicate 5 ((10, 3, 3) : Color))).accent = [] := by
  refine ⟨by norm_num [saturation], by decide, by decide, by decide⟩

/-- C1 amended: for five NON-GRAYSCALE colors each with saturation above 3/10,
the first two go to primary and the remaining three to accent. -/
theorem C1_first_two_primary (l : List Color) (h5 : l.length = 5)
    (hg : ∀ c ∈ l, is_grayscale c 10 = false)
    (hs : ∀ c ∈ l, saturation c > 3/10) :
    (categorize_colors l).primary = l.take 2 ∧
    (categorize_colors l).accent = l.drop 2 ∧
    (categorize_colors l).neutral = [] := by
  rcases l with _ | ⟨a, l⟩; · simp at h5
  rcases l with _ | ⟨b, l⟩; · simp at h5
  rcases l with _ | ⟨c, l⟩; · simp at h5
  rcases l with _ | ⟨d, l⟩; · simp at h5
  rcases l with _ | ⟨e, l⟩; · simp at h5
  rcases l with _ | ⟨f, l⟩
  swap
  · simp only [List.length_cons] at h5; omega
  simp only [List.mem_cons, List.not_mem_nil, or_false, forall_eq_or_imp, forall_eq] at hg hs
  obtain ⟨ga, gb, gc, gd, ge⟩ := hg
  obtain ⟨sa, sb, sc, sd, se⟩ := hs
  simp [categorize_colors, categorizeStep, ga, gb, gc, gd, ge, sa, sb, sc, sd, se]

theorem C1_first_two_primary_witness :
    (categorize_colors
        [((200, 30, 30) : Color), (30, 200, 30), (30, 30, 200), (200, 200, 30), (200, 30, 200)]).primary
      = [(200, 30, 30), (30, 200, 30)] ∧
    (categorize_colors
        [((200, 30, 30) : Color), (30, 200, 30), (30, 30, 200), (200, 200, 30), (200, 30, 200)]).accent
      = [(30, 30, 200), (200, 200, 30), (200, 30, 200)] ∧
    (categorize_colors
        [((200, 30, 30) : Color), (30, 200, 30), (30, 30, 200), (200, 200, 30), (200, 30, 200)]).neutral
      = [] :=
  C1_first_two_primary
    [(200, 30, 30), (30, 200, 30), (30, 30, 200), (200, 200, 30), (200, 30, 200)]
    (by decide) (by decide)
    (by
      intro c hc
      simp only [List.mem_cons, List.not_mem_nil, or_false] at hc
      rcases hc with rfl | rfl | rfl | rfl | rfl <;> norm_num [saturation])

/-! ### Luminance lemmas -/

/-- On a gray ramp the three weighted channel terms collapse to the
linearization itself (the WCAG weights sum to 1). -/
lemma lumGray_eq (v : ℕ) : get_luminance (v, v, v) = linearize ((v : ℝ) / 255) := by
  unfold get_luminance
  ring

/-- The two branches of the piecewise linearization do not cross between the
grid points 10/255 (last linear channel value) and 11/255 (first power one). -/
lemma linearize_cross_bound :
    (10 : ℝ) / 255 / 12.92 < (((11 : ℝ) / 255 + 0.055) / 1.055) ^ (2.4 : ℝ) := by
  have hx : ((11 : ℝ) / 255 + 0.055) / 1.055 = 1001 / 10761 := by norm_num
  rw [hx]
  have hxpos : (0 : ℝ) < 1001 / 10761 := by norm_num
  have h24 : (2.4 : ℝ) = 2 + 0.4 := by norm_num
  rw [h24, Real.rpow_add hxpos]
  have h2 : ((1001 : ℝ) / 10761) ^ (2 : ℝ) = ((1001 : ℝ) / 10761) ^ (2 : ℕ) := by
    rw [show (2 : ℝ) = ((2 : ℕ) : ℝ) by norm_num, Real.rpow_natCast]
  have h04 : (0.386 : ℝ) ≤ ((1001 : ℝ) / 10761) ^ (0.4 : ℝ) := by
    have hpow : (((1001 : ℝ) / 10761) ^ (0.4 : ℝ)) ^ (5 : ℕ) = ((1001 : ℝ) / 10761) ^ (2 : ℕ) := by
      rw [← Real.rpow_natCast (((1001 : ℝ) / 10761) ^ (0.4 : ℝ)) 5,
        ← Real.rpow_mul (le_of_lt hxpos), ← h2]
      norm_num
    have h5 : ((0.386 : ℝ)) ^ (5 : ℕ) ≤ (((1001 : ℝ) / 10761) ^ (0.4 : ℝ)) ^ (5 : ℕ) := by
      rw [hpow]
      norm_num
    exact le_of_pow_le_pow_left₀ (by norm_num) (Real.rpow_nonneg (le_of_lt hxpos) _) h5
  calc (10 : ℝ) / 255 / 12.92
      < ((1001 : ℝ) / 10761) ^ (2 : ℕ) * 0.386 := by norm_num
    _ ≤ ((1001 : ℝ) / 10761) ^ (2 : ℝ) * ((1001 : ℝ) / 10761) ^ (0.4 : ℝ) := by
        rw [h2]
        exact mul_le_mul_of_nonneg_left h04 (pow_nonneg (le_of_lt hxpos) 2)

/-- The linearization is strictly increasing along the 8-bit grid. -/
lemma linearize_grid_mono {v1 v2 : ℕ} (h : v1 < v2) :
    linearize ((v1 : ℝ) / 255) < linearize ((v2 : ℝ) / 255) := by
  have hv : (v1 : ℝ) < (v2 : ℝ) := by exact_mod_cast h
  by_cases h2 : (v2 : ℝ) / 255 ≤ 0.03928
  · have h1 : (v1 : ℝ) / 255 ≤ 0.03928 := le_trans (by linarith) h2
    rw [linearize, linearize, if_pos h1, if_pos h2]
    gcongr
  · by_cases h1 : (v1 : ℝ) / 255 ≤ 0.03928
    · have h10 : v1 ≤ 10 := by
        by_contra hc
        push_neg at hc
        have h11 : (11 : ℝ) ≤ (v1 : ℝ) := by exact_mod_cast hc
        linarith
      have hv1r : (v1 : ℝ) ≤ 10 := by exact_mod_cast h10
      have h11 : 11 ≤ v2 := by
        by_contra hc
        push_neg at hc
        have hle : (v2 : ℝ) ≤ 10 := by exact_mod_cast Nat.lt_succ_iff.mp hc
        exact h2 (by linarith)
      have hv2r : (11 : ℝ) ≤ (v2 : ℝ) := by exact_mod_cast h11
      rw [linearize, linearize, if_pos h1, if_neg h2]
      calc (v1 : ℝ) / 255 / 12.92 ≤ 10 / 255 / 12.92 := by gcongr
        _ < (((11 : ℝ) / 255 + 0.055) / 1.055) ^ (2.4 : ℝ) := linearize_cross_bound
        _ ≤ (((v2 : ℝ) / 255 + 0.055) / 1.055) ^ (2.4 : ℝ) := by
            apply Real.rpow_le_rpow (by norm_num) (by gcongr) (by norm_num)
    · rw [linearize, linearize, if_neg h1, if_neg h2]
      apply Real.rpow_lt_rpow (by positivity) (by gcongr) (by norm_num)

/-- C8: on gray ramps (r = g = b = v) the WCAG luminance is strictly
increasing in v over the 8-bit range. -/
theorem C8_luminance_gray_mono (v1 v2 : ℕ) (h12 : v1 < v2) (h255 : v2 ≤ 255) :
    get_luminance (v1, v1, v1) < get_luminance (v2, v2, v2) := by
  rw [lumGray_eq, lumGray_eq]
  exact linearize_grid_mono h12

theorem C8_luminance_gray_mono_witness :
    0 < 255 ∧ 255 ≤ 255 ∧ get_luminance (0, 0, 0) < get_luminance (255, 255, 255) :=
  ⟨by norm_num, le_refl 255, C8_luminance_gray_mono 0 255 (by norm_num) (le_refl 255)⟩

/-- The sort comparison is transitive. -/
lemma lumLe_trans (a b c : Color) (h1 : lumLe a b = true) (h2 : lumLe b c = true) :
    lumLe a c = true := by
  simp only [lumLe, decide_eq_true_eq] at h1 h2 ⊢
  exact le_trans h1 h2

/-- The sort comparison is total. -/
lemma lumLe_total (a b : Color) : lumLe a b || lumLe b a := by
  simp only [lumLe, Bool.or_eq_true, decide_eq_true_eq]
  exact le_total _ _

/-- The sorted neutrals are pairwise in ascending luminance order. -/
lemma sortedNeutrals_pairwise (p : Categorized) :
    (sortedNeutrals p).Pairwise (fun a b => get_luminance a ≤ get_luminance b) := by
  have h := List.sorted_mergeSort lumLe_trans lumLe_total p.neutral
  exact h.imp (fun hab => by simpa [lumLe] using hab)

/-- C6: in the generated CSS block the neutral colors appear in ascending
luminance order (a permutation of the neutral bucket), and the i-th one is
named `light-i` above luminance 0.7, `dark-i` below 0.3, `neutral-i`
otherwise. -/
theorem C6_neutrals_sorted_named (p : Categorized) :
    (sortedNeutrals p).Pairwise (fun a b => get_luminance a ≤ get_luminance b) ∧
    (sortedNeutrals p).Perm p.neutral ∧
    generate_css_variables p
      = ["/* Color Palette - Generated from screenshot */", ":root \x7b"]
          ++ primaryLines p
          ++ (sortedNeutrals p).enum.map (fun ic =>
              cssLine
                (if get_luminance ic.2 > 0.7 then "light-" ++ toString (ic.1 + 1)
                 else if get_luminance ic.2 < 0.3 then "dark-" ++ toString (ic.1 + 1)
                 else "neutral-" ++ toString (ic.1 + 1)) ic.2)
          ++ accentLines p ++ ["\x7d"] :=
  ⟨sortedNeutrals_pairwise p, List.mergeSort_perm p.neutral lumLe, rfl⟩

/-! ### String-replacement lemmas for the JSON sidecar path -/

/-- `'.css'` does not overlap itself: if it matches at the head of
`s ++ '.css'` with `s` nonempty, it already matches at the head of `s`. -/
lemma startsWith_cssExt_append (s : List Char) (hs : s ≠ [])
    (h : startsWith cssExt (s ++ cssExt) = true) :
    startsWith cssExt s = true := by
  rcases s with _ | ⟨a, s⟩
  · exact absurd rfl hs
  rcases s with _ | ⟨b, s⟩
  · simp only [cssExt, List.cons_append, List.nil_append, startsWith,
      Bool.and_eq_true, beq_iff_eq] at h
    exact absurd h.2.1 (by decide)
  rcases s with _ | ⟨c, s⟩
  · simp only [cssExt, List.cons_append, List.nil_append, startsWith,
      Bool.and_eq_true, beq_iff_eq] at h
    exact absurd h.2.2.1 (by decide)
  rcases s with _ | ⟨d, s⟩
  · simp only [cssExt, List.cons_append, List.nil_append, startsWith,
      Bool.and_eq_true, beq_iff_eq] at h
    exact absurd h.2.2.2.1 (by decide)
  simp only [cssExt, List.cons_append, startsWith, Bool.and_eq_true, and_true] at h ⊢
  exact ⟨h.1, h.2.1, h.2.2.1, h.2.2.2⟩

/-- Appending `'.css'` to a string free of `'.css'` and replacing yields the
string with `'.json'` appended. -/
lemma replaceAll_cssExt_append (base : List Char)
    (h : containsSeq cssExt base = false) :
    replaceAll cssExt jsonExt (base ++ cssExt) = base ++ jsonExt := by
  induction base with
  | nil =>
    simp only [List.nil_append, cssExt, jsonExt]
    rw [replaceAll, if_pos (by constructor <;> decide)]
    rw [show (['c', 's', 's'].drop (['.', 'c', 's', 's'].length - 1)) = [] from rfl]
    rw [replaceAll]
    simp
  | cons c bs ih =>
    obtain ⟨hsw, hrest⟩ :
        startsWith cssExt (c :: bs) = false ∧ containsSeq cssExt bs = false := by
      simpa [containsSeq, Bool.or_eq_false_iff] using h
    have hsw2 : startsWith cssExt (c :: (bs ++ cssExt)) = false := by
      cases hx : startsWith cssExt (c :: (bs ++ cssExt))
      · rfl
      · rw [show (c :: (bs ++ cssExt)) = (c :: bs) ++ cssExt from by simp] at hx
        rw [startsWith_cssExt_append (c :: bs) (by simp) hx] at hsw
        cases hsw
    rw [List.cons_append, replaceAll, if_neg (by simp [hsw2])]
    rw [ih hrest]
    rfl

/-- C9: under `--json`, the sidecar path is the CSS path with `.css` replaced
by `.json`, and the sidecar object has exactly the keys `primary`, `neutral`,
`accent` (hex arrays mirroring the buckets) and `all_colors` (hex strings of
all extracted colors in pre-categorization order). -/
theorem C9_json_sidecar (base : List Char) (colors : List Color)
    (h : containsSeq cssExt base = false) :
    jsonFileName (String.mk (base ++ cssExt)) = String.mk (base ++ jsonExt) ∧
    json_output colors
      = [("primary", (categorize_colors colors).primary.map rgb_to_hex),
         ("neutral", (categorize_colors colors).neutral.map rgb_to_hex),
         ("accent", (categorize_colors colors).accent.map rgb_to_hex),
         ("all_colors", colors.map rgb_to_hex)] := by
  refine ⟨?_, rfl⟩
  show String.mk (replaceAll ".css".data ".json".data (String.mk (base ++ cssExt)).data)
      = String.mk (base ++ jsonExt)
  rw [show ".css".data = cssExt from rfl, show ".json".data = jsonExt from rfl]
  exact congrArg String.mk (replaceAll_cssExt_append base h)

theorem C9_json_sidecar_witness :
    containsSeq cssExt "colors".data = false ∧
    jsonFileName "colors.css" = "colors.json" ∧
    json_output [((255, 0, 0) : Color)]
      = [("primary", (categorize_colors [((255, 0, 0) : Color)]).primary.map rgb_to_hex),
         ("neutral", (categorize_colors [((255, 0, 0) : Color)]).neutral.map rgb_to_hex),
         ("accent", (categorize_colors [((255, 0, 0) : Color)]).accent.map rgb_to_hex),
         ("all_colors", [((255, 0, 0) : Color)].map rgb_to_hex)] :=
  ⟨by decide,
    (C9_json_sidecar "colors".data [(255, 0, 0)] (by decide)).1,
    (C9_json_sidecar "colors".data [(255, 0, 0)] (by decide)).2⟩

/-- C10: the JSON sidecar's `neutral` array mirrors the bucket in
classification (insertion) order — the CSS emitter only sorts a copy — and
that order can differ from the luminance-sorted order used for the CSS
lines. -/
theorem C10_neutral_insertion_order (colors : List Color) :
    (json_output colors).lookup "neutral"
        = some ((categorize_colors colors).neutral.map rgb_to_hex) ∧
    (categorize_colors [((200, 200, 200) : Color), (20, 20, 20)]).neutral
        = [(200, 200, 200), (20, 20, 20)] ∧
    sortedNeutrals (categorize_colors [((200, 200, 200) : Color), (20, 20, 20)])
        ≠ (categorize_colors [((200, 200, 200) : Color), (20, 20, 20)]).neutral ∧
    (json_output [((200, 200, 200) : Color), (20, 20, 20)]).lookup "neutral"
        = some ["#c8c8c8", "#141414"] := by
  refine ⟨rfl, by decide, ?_, by decide⟩
  intro hEq
  have hp := sortedNeutrals_pairwise (categorize_colors [((200, 200, 200) : Color), (20, 20, 20)])
  rw [hEq] at hp
  rw [show (categorize_colors [((200, 200, 200) : Color), (20, 20, 20)]).neutral
      = [(200, 200, 200), (20, 20, 20)] from by decide] at hp
  have hle := (List.pairwise_cons.mp hp).1 (20, 20, 20) (by simp)
  have hlt : get_luminance (20, 20, 20) < get_luminance (200, 200, 200) := by
    rw [lumGray_eq, lumGray_eq]
    exact linearize_grid_mono (by norm_num)
  linarith

end AnalyzeColors
